import Mathlib

/-!
Verification of the AInvestool market-data engine.

Shallow embedding of `src/modules/market_service.py` (staleness policy,
retry-with-backoff wrapper, single-price fetch, concurrent portfolio
refresher, valuation aggregator `get_market_data`) together with the pieces
of `src/config.py` it reads.  Numbers are modelled as rationals, the current
time as rational seconds since an epoch, and the external quote source as an
explicit oracle argument.
-/

namespace AInvestool

/-! ## Python `or` / `dict.get` coercions

Holdings are Python dicts probed through `item.get(k)` with legacy/new key
fall-through via Python `or`, which treats `None` and the empty string as
falsy. -/

/-- Python `a or b` for two optional strings (`None` and `""` are falsy). -/
def pyOrStr : Option String → Option String → Option String
  | some s, b => if s = "" then b else some s
  | none, b => b

/-- Python `a or b` where the right operand is a plain (defaulted) string. -/
def pyOrStrD (a : Option String) (b : String) : String :=
  match a with
  | some s => if s = "" then b else s
  | none => b

/-- A holding record: one Python dict with both new-style and legacy keys,
    as read by `market_service.py` (`symbol`/`Ticker`, `asset_class`/`Type`,
    `manual_price`/`Manual_Price`, ...).  A `none` field is an absent key. -/
structure Holding where
  symbol : Option String := none
  Ticker : Option String := none
  asset_type : Option String := none
  asset_class : Option String := none
  Type' : Option String := none
  category : Option String := none
  currency : Option String := none
  Currency : Option String := none
  manual_price : Option ℚ := none
  Manual_Price : Option ℚ := none
  last_update : Option String := none
  Last_Update : Option String := none
  quantity : Option ℚ := none
  Quantity : Option ℚ := none
  avg_cost : Option ℚ := none
  Avg_Cost : Option ℚ := none
  account_id : Option String := none
  Account_ID : Option String := none
deriving DecidableEq, Repr

/-! ## Timestamps: `datetime.strptime(s, "%Y-%m-%d %H:%M")`

The parser mirrors CPython's `_strptime`: `%Y` is exactly four digits, the
other fields one or two digits with their range checks, whitespace in the
format matches one or more whitespace characters, trailing input is
rejected, and the resulting calendar date must be valid (day within the
month, year ≥ 1).  A successful parse is returned as minutes since the
proleptic-Gregorian epoch 0001-01-01 00:00. -/

def isLeapYear (y : Nat) : Bool :=
  (y % 4 = 0 ∧ y % 100 ≠ 0) ∨ y % 400 = 0

def daysInMonth (y m : Nat) : Nat :=
  if m = 2 then (if isLeapYear y then 29 else 28)
  else if m = 4 ∨ m = 6 ∨ m = 9 ∨ m = 11 then 30
  else 31

/-- Days in all years strictly before year `y` (proleptic Gregorian, `y ≥ 1`). -/
def daysBeforeYear (y : Nat) : Nat :=
  365 * (y - 1) + (y - 1) / 4 - (y - 1) / 100 + (y - 1) / 400

/-- Days in the months of year `y` strictly before month `m`. -/
def daysBeforeMonth (y m : Nat) : Nat :=
  [0, 31, 59, 90, 120, 151, 181, 212, 243, 273, 304, 334].getD (m - 1) 0
    + (if 2 < m ∧ isLeapYear y then 1 else 0)

/-- Minutes since 0001-01-01 00:00 of the civil time `y-m-d hh:mi`. -/
def toEpochMinutes (y m d hh mi : Nat) : Nat :=
  (daysBeforeYear y + daysBeforeMonth y m + (d - 1)) * 1440 + hh * 60 + mi

/-- Split off a maximal run of ASCII digits. -/
def takeDigits : List Char → List Char × List Char
  | [] => ([], [])
  | c :: cs =>
    if c.isDigit then
      let p := takeDigits cs
      (c :: p.1, p.2)
    else ([], c :: cs)

/-- Numeric value of a digit run. -/
def digitsVal (l : List Char) : Nat :=
  l.foldl (fun a c => a * 10 + (c.toNat - 48)) 0

/-- Split off a maximal run of whitespace, returning its length and the rest. -/
def takeSpaces : List Char → Nat × List Char
  | [] => (0, [])
  | c :: cs =>
    if c.isWhitespace then
      let p := takeSpaces cs
      (p.1 + 1, p.2)
    else (0, c :: cs)

/-- Embedding of `datetime.strptime(s, "%Y-%m-%d %H:%M")`: `some` minutes since epoch on
    success, `none` when CPython would raise `ValueError`. -/
def parse_ts (s : String) : Option Nat :=
  let cs := s.toList
  let py := takeDigits cs
  if py.1.length ≠ 4 then none else
  match py.2 with
  | '-' :: cs1 =>
    let pm := takeDigits cs1
    if pm.1.length = 0 ∨ 2 < pm.1.length then none else
    match pm.2 with
    | '-' :: cs2 =>
      let pd := takeDigits cs2
      if pd.1.length = 0 ∨ 2 < pd.1.length then none else
      let ps := takeSpaces pd.2
      if ps.1 = 0 then none else
      let ph := takeDigits ps.2
      if ph.1.length = 0 ∨ 2 < ph.1.length then none else
      match ph.2 with
      | ':' :: cs3 =>
        let pmin := takeDigits cs3
        if pmin.1.length = 0 ∨ 2 < pmin.1.length then none else
        if pmin.2 ≠ [] then none else
        let y := digitsVal py.1
        let m := digitsVal pm.1
        let d := digitsVal pd.1
        let hh := digitsVal ph.1
        let mi := digitsVal pmin.1
        if 1 ≤ y ∧ 1 ≤ m ∧ m ≤ 12 ∧ 1 ≤ d ∧ d ≤ daysInMonth y m ∧ hh ≤ 23 ∧ mi ≤ 59
        then some (toEpochMinutes y m d hh mi)
        else none
      | _ => none
    | _ => none
  | _ => none

/-- Embedding of `check_is_outdated` (market_service.py:172-192).  `now` is
    `datetime.now()` in seconds since the same epoch; `threshold_days` is
    `config.market_data.price_update_threshold_days` (default 1). -/
def check_is_outdated (threshold_days : Nat) (now : ℚ) (last_update_str : String) : Bool :=
  if last_update_str = "" ∨ last_update_str = "N/A" then true
  else
    match parse_ts last_update_str with
    | none => true
    | some t => decide (now - (t : ℚ) * 60 > 86400 * (threshold_days : ℚ))

/-! ## `retry_with_backoff` (market_service.py:27-43)

The wrapped function is an oracle `f : Nat → Except E α` giving the outcome
of each attempt (`x` is the Python loop counter, starting at 0).  The
embedding returns the final outcome together with the number of calls made
and the list of sleeps performed; the sleep after failed attempt `x` is
`backoff_in_seconds * 2 ^ x + jitter x`, where `jitter x` stands for the
value `random.uniform(0, 1)` drew on that iteration. -/

def retry_go {E α : Type} (backoff_in_seconds : ℚ) (jitter : Nat → ℚ)
    (f : Nat → Except E α) : Nat → Nat → Except E α × Nat × List ℚ
  | 0, x =>
    match f x with
    | .ok a => (.ok a, 1, [])
    | .error e => (.error e, 1, [])
  | n + 1, x =>
    match f x with
    | .ok a => (.ok a, 1, [])
    | .error _ =>
      let r := retry_go backoff_in_seconds jitter f n (x + 1)
      (r.1, r.2.1 + 1, (backoff_in_seconds * 2 ^ x + jitter x) :: r.2.2)

/-- Embedding of `retry_with_backoff(retries, backoff_in_seconds)` applied to `f`:
    result, total number of calls of `f`, and sleeps performed. -/
def retry_with_backoff {E α : Type} (retries : Nat) (backoff_in_seconds : ℚ)
    (jitter : Nat → ℚ) (f : Nat → Except E α) : Except E α × Nat × List ℚ :=
  retry_go backoff_in_seconds jitter f retries 0

/-! ## `fetch_single_price` (market_service.py:136-169)

The quote source is two oracles: `historyRes` is the outcome of
`stock.history(period="1d")` (`.error` = the call raised; `.ok closes` = the
`Close` column, possibly empty), and `fastRes` the outcome of
`stock.fast_info["last_price"]` (`.error` = raised, `.ok none` = `None`).
The result is `Except`: a `.error` would be an exception escaping the
function — the theorems show none does. -/

def fetch_single_price (historyRes : Except String (List ℚ))
    (fastRes : Except String (Option ℚ)) : Except String (Bool × ℚ × Option String) :=
  match historyRes with
  | .error e => .ok (false, 0, some e)
  | .ok closes =>
    match closes with
    | c :: cs => .ok (true, (c :: cs).getLastD 0, none)
    | [] =>
      match fastRes with
      | .ok (some p) => if 0 < p then .ok (true, p, none) else .ok (false, 0, some "No Data")
      | .ok none => .ok (false, 0, some "No Data")
      | .error _ => .ok (false, 0, some "No Data")

/-! ## `auto_update_portfolio` (market_service.py:195-266) -/

/-- The candidate scan: `for i, item in enumerate(portfolio)` keeping items
    whose type is not `現金`/`負債` and whose `last_update` is outdated.
    `i` is the index of the head of `rest` in the original list. -/
def outdated_items (threshold_days : Nat) (now : ℚ) :
    Nat → List Holding → List (Nat × Holding)
  | _, [] => []
  | i, item :: rest =>
    let tail := outdated_items threshold_days now (i + 1) rest
    let atype := pyOrStr item.asset_class item.Type'
    if atype = some "現金" ∨ atype = some "負債" then tail
    else
      let last_update := pyOrStrD item.last_update (item.Last_Update.getD "N/A")
      if check_is_outdated threshold_days now last_update then (i, item) :: tail
      else tail

/-- In-place update of a successfully fetched holding: new-style keys are
    set unconditionally, legacy keys only when present. -/
def updateHolding (h : Holding) (price : ℚ) (now_str : String) : Holding :=
  { h with
    manual_price := some price
    last_update := some now_str
    Manual_Price := if h.Manual_Price.isSome then some price else h.Manual_Price
    Last_Update := if h.Last_Update.isSome then some now_str else h.Last_Update }

/-- Result-merging loop over the candidates.  `fetch i` is the
    `(success, price)` outcome of `fetch_single_price` for the candidate at
    portfolio index `i`; since each task writes only its own index and the
    counters commute, completion order does not affect the final state, so
    the candidates are processed in order. -/
def auto_update_go (fetch : Nat → Bool × ℚ) (now_str : String) :
    List (Nat × Holding) → Nat → Nat → List Holding → Nat × Nat × List Holding
  | [], success_count, fail_count, portfolio => (success_count, fail_count, portfolio)
  | (i, _) :: rest, success_count, fail_count, portfolio =>
    match fetch i with
    | (true, price) =>
      let portfolio' :=
        match portfolio[i]? with
        | some h => portfolio.set i (updateHolding h price now_str)
        | none => portfolio
      auto_update_go fetch now_str rest (success_count + 1) fail_count portfolio'
    | (false, _) => auto_update_go fetch now_str rest success_count (fail_count + 1) portfolio

/-- Embedding of `auto_update_portfolio(portfolio)`.  `now_str` is
    `datetime.now().strftime("%Y-%m-%d %H:%M")`. -/
def auto_update_portfolio (threshold_days : Nat) (now : ℚ) (now_str : String)
    (fetch : Nat → Bool × ℚ) (portfolio : List Holding) : Nat × Nat × List Holding :=
  let outdated := outdated_items threshold_days now 0 portfolio
  if outdated = [] then (0, 0, portfolio)
  else auto_update_go fetch now_str outdated 0 0 portfolio

/-! ## `get_market_data` (market_service.py:269-461) -/

/-- Field extraction from the holding dict, lines 296-312. -/
def item_ticker (item : Holding) : Option String :=
  pyOrStr item.symbol item.Ticker

def item_asset_type (item : Holding) : Option String :=
  pyOrStr item.asset_type (pyOrStr item.asset_class item.Type')

def item_category (item : Holding) : String :=
  pyOrStrD item.category
    (if item_asset_type item = some "負債" then "liability" else "investment")

def item_asset_currency (item : Holding) : String :=
  pyOrStrD item.currency (item.Currency.getD "USD")

def item_manual_price (item : Holding) : ℚ :=
  item.manual_price.getD (item.Manual_Price.getD 0)

def item_last_update (item : Holding) : String :=
  pyOrStrD item.last_update (item.Last_Update.getD "N/A")

def item_qty (item : Holding) : ℚ :=
  item.quantity.getD (item.Quantity.getD 0)

def item_avg_cost (item : Holding) : ℚ :=
  item.avg_cost.getD (item.Avg_Cost.getD 0)

def item_account_id (item : Holding) : String :=
  pyOrStrD item.account_id (item.Account_ID.getD "default_main")

/-- Line 320: cash/liability holdings are priced at face value. -/
def item_is_financial (item : Holding) : Bool :=
  item_category item = "cash" ∨ item_category item = "liability"
    ∨ item_asset_type item = some "現金" ∨ item_asset_type item = some "負債"

/-- Line 392: liabilities contribute negatively and flip the P/L sign. -/
def item_is_liability (item : Holding) : Bool :=
  item_category item = "liability" ∨ item_asset_type item = some "負債"

/-- Currency-conversion multiplier, lines 378-382. -/
def rate_multiplier (base_currency asset_currency : String) (usd_twd_rate : ℚ) : ℚ :=
  if base_currency = "TWD" ∧ asset_currency = "USD" then usd_twd_rate
  else if base_currency = "USD" ∧ asset_currency = "TWD" then
    (if 0 < usd_twd_rate then 1 / usd_twd_rate else 1)
  else 1

/-- Outcome of the price-resolution block, lines 314-374: resolved native
    price, daily change fraction, status tag, and the history series. -/
structure PriceResolution where
  current_price : ℚ
  daily_change_pct : ℚ
  status : String
  history : List ℚ
deriving DecidableEq, Repr

/-- Price resolution for one holding, lines 314-374.  `fetch` is the
    outcome of `stock.history(period="1mo")`: `some closes` = the `Close`
    column of a non-raising call (`[]` = empty frame), `none` = the call
    raised; an empty frame raises `"No Data"` into the same handler, so both
    land in the fallback tier. -/
def resolve_price (threshold_days : Nat) (now : ℚ) (fetch : Option (List ℚ))
    (is_financial : Bool) (manual_price avg_cost : ℚ) (last_update : String) :
    PriceResolution :=
  if is_financial then
    let cp := if 0 < manual_price then manual_price else 1
    ⟨cp, 0, "✅ 手動", List.replicate 30 cp⟩
  else if check_is_outdated threshold_days now last_update = false ∧ 0 < manual_price then
    ⟨manual_price, 0, "💾 快取 (24h內)", List.replicate 30 manual_price⟩
  else
    match fetch with
    | some (c :: cs) =>
      let closes := c :: cs
      let raw_price := closes.getLastD 0
      let raw_prev := if 1 < closes.length then closes.getD (closes.length - 2) 0 else raw_price
      let dcp := if 0 < raw_prev then (raw_price - raw_prev) / raw_prev else 0
      ⟨raw_price, dcp, "✅ 即時", closes⟩
    | _ =>
      if 0 < manual_price then
        ⟨manual_price, 0, "⚠️ 手動/舊資料", List.replicate 30 manual_price⟩
      else
        ⟨avg_cost, 0, "⚠️ 僅顯示成本", List.replicate 30 avg_cost⟩

/-- One row of the valuation DataFrame, lines 429-458. -/
structure MarketRow where
  Category : String
  Type' : Option String
  Ticker : Option String
  Quantity : ℚ
  Current_Price : ℚ
  Market_Value : ℚ
  Net_Value : ℚ
  Total_Cost : ℚ
  Unrealized_PL : ℚ
  Display_Price : ℚ
  Display_Cost_Basis : ℚ
  Display_Market_Value : ℚ
  Display_Total_Cost : ℚ
  Display_PL : ℚ
  Display_Currency : String
  ROI : ℚ
  Daily_Change : ℚ
  History : List ℚ
  Status : String
  Avg_Cost : ℚ
  Currency : String
  Last_Update : String
  Account_ID : String
deriving DecidableEq, Repr

/-- The loop body of `get_market_data` for one holding, lines 295-458. -/
def market_row (threshold_days : Nat) (target_currency : String) (usd_twd_rate : ℚ)
    (now : ℚ) (fetch : Option (List ℚ)) (item : Holding) : MarketRow :=
  let base_currency := if target_currency = "Auto" then "TWD" else target_currency
  let asset_currency := item_asset_currency item
  let manual_price := item_manual_price item
  let qty := item_qty item
  let avg_cost := item_avg_cost item
  let pr := resolve_price threshold_days now fetch (item_is_financial item)
    manual_price avg_cost (item_last_update item)
  let current_price := pr.current_price
  let mult := rate_multiplier base_currency asset_currency usd_twd_rate
  let base_price := current_price * mult
  let base_avg_cost := avg_cost * mult
  let market_value_base := base_price * qty
  let total_cost_base := base_avg_cost * qty
  let net_value_base := if item_is_liability item then -market_value_base else market_value_base
  let unrealized_pl_base :=
    if item_is_liability item then total_cost_base - market_value_base
    else market_value_base - total_cost_base
  let roi := if 0 < total_cost_base then unrealized_pl_base / total_cost_base * 100 else 0
  let display_curr_code := if target_currency = "Auto" then asset_currency else base_currency
  let display_price := if target_currency = "Auto" then current_price else base_price
  let display_cost_basis := if target_currency = "Auto" then avg_cost else base_avg_cost
  let display_market_value := if target_currency = "Auto" then current_price * qty else market_value_base
  let display_total_cost := if target_currency = "Auto" then avg_cost * qty else total_cost_base
  let display_pl :=
    if target_currency = "Auto" then
      (if item_is_liability item then display_total_cost - display_market_value
       else display_market_value - display_total_cost)
    else unrealized_pl_base
  { Category := item_category item
    Type' := item_asset_type item
    Ticker := item_ticker item
    Quantity := qty
    Current_Price := base_price
    Market_Value := market_value_base
    Net_Value := net_value_base
    Total_Cost := total_cost_base
    Unrealized_PL := unrealized_pl_base
    Display_Price := display_price
    Display_Cost_Basis := display_cost_basis
    Display_Market_Value := display_market_value
    Display_Total_Cost := display_total_cost
    Display_PL := display_pl
    Display_Currency := display_curr_code
    ROI := roi
    Daily_Change := pr.daily_change_pct * 100
    History := pr.history
    Status := pr.status
    Avg_Cost := base_avg_cost
    Currency := asset_currency
    Last_Update := item_last_update item
    Account_ID := item_account_id item }

def get_market_data_go (threshold_days : Nat) (target_currency : String)
    (usd_twd_rate : ℚ) (now : ℚ) (fetch : Nat → Option (List ℚ)) :
    Nat → List Holding → List MarketRow
  | _, [] => []
  | i, item :: rest =>
    market_row threshold_days target_currency usd_twd_rate now (fetch i) item
      :: get_market_data_go threshold_days target_currency usd_twd_rate now fetch (i + 1) rest

/-- Embedding of `get_market_data(portfolio, target_currency, usd_twd_rate)`:
    one `MarketRow` per holding, in order; `fetch i` is the live-fetch
    oracle for the holding at index `i` (consulted only on the live tier). -/
def get_market_data (threshold_days : Nat) (target_currency : String)
    (usd_twd_rate : ℚ) (now : ℚ) (fetch : Nat → Option (List ℚ))
    (portfolio : List Holding) : List MarketRow :=
  get_market_data_go threshold_days target_currency usd_twd_rate now fetch 0 portfolio

/-- Value of `datetime.now()` used by the concrete staleness examples:
    2026-10-12 08:00 in seconds since the epoch of `parse_ts`. -/
def example_now : ℚ := 1065456480 * 60

/-! ## Theorems -/

/-- C7: the currency multiplier is 1 when asset and base currency agree,
    `usd_to_other_rate` when converting USD into TWD, the guarded reciprocal
    when converting TWD into USD (1 when the rate is 0, never a division
    error), and `rate_multiplier("USD","USD",32.5) = 1`,
    `rate_multiplier("USD"→base "TWD",32.5) = 32.5`,
    `rate_multiplier("TWD"→base "USD",32.5) = 1/32.5 = 2/65`. -/
theorem C7_rate_multiplier (c : String) (rate : ℚ) :
    rate_multiplier c c rate = 1 ∧
    rate_multiplier "TWD" "USD" rate = rate ∧
    (0 < rate → rate_multiplier "USD" "TWD" rate = 1 / rate) ∧
    rate_multiplier "USD" "TWD" 0 = 1 ∧
    rate_multiplier "USD" "USD" (65 / 2) = 1 ∧
    rate_multiplier "TWD" "USD" (65 / 2) = 65 / 2 ∧
    rate_multiplier "USD" "TWD" (65 / 2) = 2 / 65 := by
  refine ⟨?_, ?_, ?_, ?_, ?_, ?_, ?_⟩
  · unfold rate_multiplier
    split
    · rename_i h; exact absurd (h.1.symm.trans h.2) (by decide)
    · split
      · rename_i h; exact absurd (h.1.symm.trans h.2) (by decide)
      · rfl
  · unfold rate_multiplier
    rw [if_pos ⟨rfl, rfl⟩]
  · intro h
    unfold rate_multiplier
    rw [if_neg (by decide), if_pos ⟨rfl, rfl⟩, if_pos h]
  · unfold rate_multiplier
    rw [if_neg (by decide), if_pos ⟨rfl, rfl⟩, if_neg (lt_irrefl 0)]
  · unfold rate_multiplier
    rw [if_neg (by decide), if_neg (by decide)]
  · unfold rate_multiplier
    rw [if_pos ⟨rfl, rfl⟩]
  · unfold rate_multiplier
    rw [if_neg (by decide), if_pos ⟨rfl, rfl⟩, if_pos (by norm_num)]
    norm_num

/-- C7 witness: the guarded-reciprocal implication at the concrete rate
    32.5 = 65/2. -/
theorem C7_rate_multiplier_witness :
    rate_multiplier "USD" "TWD" (65 / 2) = 1 / (65 / 2) :=
  (C7_rate_multiplier "USD" (65 / 2)).2.2.1 (by norm_num)

/-- On a parseable timestamp, `check_is_outdated` is exactly the threshold
    comparison against the parsed time. -/
theorem check_is_outdated_of_parse (threshold_days : Nat) (now : ℚ) (s : String)
    (t : Nat) (ht : parse_ts s = some t) :
    check_is_outdated threshold_days now s =
      decide (now - (t : ℚ) * 60 > 86400 * (threshold_days : ℚ)) := by
  have hs1 : s ≠ "" := by
    rintro rfl
    rw [show parse_ts "" = none from rfl] at ht
    exact Option.noConfusion ht
  have hs2 : s ≠ "N/A" := by
    rintro rfl
    rw [show parse_ts "N/A" = none from rfl] at ht
    exact Option.noConfusion ht
  unfold check_is_outdated
  rw [if_neg (by simp [hs1, hs2]), ht]

/-- C2: `check_is_outdated` is true on the sentinel `"unset"` and on the
    empty string, true on every string that does not parse as
    `"YYYY-MM-DD HH:MM"`, and on a parseable timestamp it is true exactly
    when `now` minus the parsed time exceeds the threshold; with the default
    threshold of 1 day, a timestamp 2 days old is stale and one 1 hour old
    is not. -/
theorem C2_check_is_outdated (threshold_days : Nat) (now : ℚ) (s : String) :
    check_is_outdated threshold_days now "unset" = true ∧
    check_is_outdated threshold_days now "" = true ∧
    (parse_ts s = none → check_is_outdated threshold_days now s = true) ∧
    (∀ t : Nat, parse_ts s = some t →
      (check_is_outdated threshold_days now s = true ↔
        now - (t : ℚ) * 60 > 86400 * (threshold_days : ℚ))) ∧
    check_is_outdated 1 example_now "2026-10-10 08:00" = true ∧
    check_is_outdated 1 example_now "2026-10-12 07:00" = false := by
  refine ⟨rfl, rfl, ?_, ?_, ?_, ?_⟩
  · intro h
    unfold check_is_outdated
    split
    · rfl
    · rw [h]
  · intro t ht
    rw [check_is_outdated_of_parse threshold_days now s t ht]
    simp
  · rw [check_is_outdated_of_parse 1 example_now _ 1065453600 (by decide),
      decide_eq_true_eq]
    norm_num [example_now]
  · rw [check_is_outdated_of_parse 1 example_now _ 1065456420 (by decide),
      decide_eq_false_iff_not]
    norm_num [example_now]

/-- C2 witness: at `now` = 2026-10-12 08:00, the parseable timestamp
    2026-10-10 08:00 (2 days earlier) is reported stale via the
    threshold comparison. -/
theorem C2_check_is_outdated_witness :
    check_is_outdated 1 example_now "2026-10-10 08:00" = true :=
  (((C2_check_is_outdated 1 example_now "2026-10-10 08:00").2.2.2.1 1065453600
    (by decide)).mpr (by norm_num [example_now]))

/-- The call counter of `retry_go` never exceeds `remaining + 1`. -/
theorem retry_go_calls_le {E α : Type} (b : ℚ) (j : Nat → ℚ) (f : Nat → Except E α) :
    ∀ n x, (retry_go b j f n x).2.1 ≤ n + 1 := by
  intro n
  induction n with
  | zero => intro x; cases h : f x <;> simp [retry_go, h]
  | succ n ih =>
    intro x
    cases h : f x with
    | ok a => simp [retry_go, h]
    | error e =>
      have hx := ih (x + 1)
      simp only [retry_go, h]
      omega

/-- Splitting a shifted sleep schedule off the front. -/
theorem range_succ_map_shift (S : Nat → ℚ) (k : Nat) :
    (List.range (k + 1)).map S = S 0 :: (List.range k).map fun y => S (y + 1) := by
  rw [List.range_succ_eq_map]
  simp [List.map_map, Function.comp]

/-- Behaviour of `retry_go` when the first success is attempt `x + k`. -/
theorem retry_go_success {E α : Type} (b : ℚ) (j : Nat → ℚ) (f : Nat → Except E α) :
    ∀ (n x k : Nat) (a : α), k ≤ n → f (x + k) = .ok a →
      (∀ m, m < k → (f (x + m)).isOk = false) →
      retry_go b j f n x =
        (.ok a, k + 1, (List.range k).map fun y => b * 2 ^ (x + y) + j (x + y)) := by
  intro n
  induction n with
  | zero =>
    intro x k a hk hok _
    interval_cases k
    rw [Nat.add_zero] at hok
    simp [retry_go, hok]
  | succ n ih =>
    intro x k a hk hok hfail
    cases k with
    | zero =>
      rw [Nat.add_zero] at hok
      simp [retry_go, hok]
    | succ k =>
      have h0 : (f x).isOk = false := by
        have := hfail 0 (Nat.succ_pos k)
        rwa [Nat.add_zero] at this
      obtain ⟨e, he⟩ : ∃ e, f x = .error e := by
        cases hfx : f x
        · exact ⟨_, rfl⟩
        · rw [hfx] at h0; exact Bool.noConfusion h0
      have hrec := ih (x + 1) k a (by omega)
        (by rw [show x + 1 + k = x + (k + 1) by omega]; exact hok)
        (fun m hm => by
          rw [show x + 1 + m = x + (m + 1) by omega]
          exact hfail (m + 1) (by omega))
      simp only [retry_go, he, hrec, Prod.mk.injEq]
      refine ⟨trivial, trivial, ?_⟩
      rw [range_succ_map_shift (fun y => b * 2 ^ (x + y) + j (x + y)) k]
      simp only [Nat.add_zero]
      refine congrArg (_ :: ·) (List.map_congr_left fun y _ => ?_)
      rw [show x + (y + 1) = x + 1 + y by omega]

/-- Behaviour of `retry_go` when every attempt in range fails: the last error is
    re-raised after `remaining + 1` calls and `remaining` sleeps. -/
theorem retry_go_allfail {E α : Type} (b : ℚ) (j : Nat → ℚ) (f : Nat → Except E α) :
    ∀ (n x : Nat), (∀ m, m ≤ n → (f (x + m)).isOk = false) →
      retry_go b j f n x =
        (f (x + n), n + 1, (List.range n).map fun y => b * 2 ^ (x + y) + j (x + y)) := by
  intro n
  induction n with
  | zero =>
    intro x hfail
    have h0 := hfail 0 (Nat.le_refl 0)
    rw [Nat.add_zero] at h0 ⊢
    obtain ⟨e, he⟩ : ∃ e, f x = .error e := by
      cases hfx : f x
      · exact ⟨_, rfl⟩
      · rw [hfx] at h0; exact Bool.noConfusion h0
    simp [retry_go, he]
  | succ n ih =>
    intro x hfail
    have h0 : (f x).isOk = false := by
      have := hfail 0 (Nat.zero_le _)
      rwa [Nat.add_zero] at this
    obtain ⟨e, he⟩ : ∃ e, f x = .error e := by
      cases hfx : f x
      · exact ⟨_, rfl⟩
      · rw [hfx] at h0; exact Bool.noConfusion h0
    have hrec := ih (x + 1) (fun m hm => by
      rw [show x + 1 + m = x + (m + 1) by omega]
      exact hfail (m + 1) (by omega))
    simp only [retry_go, he, hrec, Prod.mk.injEq]
    refine ⟨by rw [show x + 1 + n = x + (n + 1) by omega], trivial, ?_⟩
    rw [range_succ_map_shift (fun y => b * 2 ^ (x + y) + j (x + y)) n]
    simp only [Nat.add_zero]
    refine congrArg (_ :: ·) (List.map_congr_left fun y _ => ?_)
    rw [show x + (y + 1) = x + 1 + y by omega]

/-- C3 counterexample: with the default `retries=3` and every attempt
    raising, the wrapped function is called 4 times — not "up to 3 attempts
    in total" as claimed. -/
theorem C3_counterexample :
    (retry_with_backoff 3 2 (fun _ => 1 / 2)
        (fun _ => (Except.error "boom" : Except String Nat))).2.1 = 4 ∧
    ¬(retry_with_backoff 3 2 (fun _ => 1 / 2)
        (fun _ => (Except.error "boom" : Except String Nat))).2.1 ≤ 3 := by
  have h := retry_go_allfail (E := String) (α := Nat) 2 (fun _ => 1 / 2)
    (fun _ => Except.error "boom") 3 0 (fun m _ => rfl)
  unfold retry_with_backoff
  rw [h]
  exact ⟨rfl, by decide⟩

/-- C3 (amended): the wrapper calls the wrapped function up to `retries + 1`
    times in total (one initial attempt plus up to `retries` retries, so the
    default `retries = 3` allows 4 calls); after a failed attempt `x` with
    `x < retries` it sleeps `base * 2 ^ x + jitter x` seconds and tries
    again; a normal return is passed through unchanged with no further
    calls, and when every attempt raises, the final exception is re-raised
    after `retries + 1` calls. -/
theorem C3_retry_with_backoff {E α : Type} (retries : Nat) (base : ℚ)
    (jitter : Nat → ℚ) (f : Nat → Except E α) :
    (retry_with_backoff retries base jitter f).2.1 ≤ retries + 1 ∧
    (∀ (x : Nat) (a : α), x ≤ retries → f x = .ok a →
      (∀ y, y < x → (f y).isOk = false) →
      retry_with_backoff retries base jitter f =
        (.ok a, x + 1, (List.range x).map fun y => base * 2 ^ y + jitter y)) ∧
    ((∀ x, x ≤ retries → (f x).isOk = false) →
      retry_with_backoff retries base jitter f =
        (f retries, retries + 1, (List.range retries).map fun y => base * 2 ^ y + jitter y)) := by
  refine ⟨retry_go_calls_le base jitter f retries 0, ?_, ?_⟩
  · intro x a hx hok hfail
    unfold retry_with_backoff
    rw [retry_go_success base jitter f retries 0 x a hx
      (by rwa [Nat.zero_add]) (fun m hm => by rw [Nat.zero_add]; exact hfail m hm)]
    simp only [Nat.zero_add]
  · intro hfail
    unfold retry_with_backoff
    rw [retry_go_allfail base jitter f retries 0
      (fun m hm => by rw [Nat.zero_add]; exact hfail m hm)]
    simp only [Nat.zero_add]

/-- C3 witness: `retries = 3`, failure at attempt 0 and success at
    attempt 1 — two calls, one sleep of `2 * 2 ^ 0 + 1/2`, value passed
    through unchanged. -/
theorem C3_retry_with_backoff_witness :
    retry_with_backoff 3 2 (fun _ => 1 / 2)
      (fun x => if x = 1 then (Except.ok 42 : Except String Nat) else Except.error "e") =
      (Except.ok 42, 2, (List.range 1).map fun y => 2 * 2 ^ y + 1 / 2) :=
  (C3_retry_with_backoff 3 2 (fun _ => 1 / 2) _).2.1 1 42 (by decide) rfl
    (fun y hy => by cases Nat.lt_one_iff.mp hy; rfl)

/-- Totality: `fetch_single_price` returns normally for every behaviour of the quote
    source. -/
theorem fetch_single_price_ok (historyRes : Except String (List ℚ))
    (fastRes : Except String (Option ℚ)) :
    ∃ v, fetch_single_price historyRes fastRes = .ok v := by
  unfold fetch_single_price
  rcases historyRes with e | closes
  · exact ⟨_, rfl⟩
  · rcases closes with _ | ⟨c, cs⟩
    · rcases fastRes with e | p
      · exact ⟨_, rfl⟩
      · rcases p with _ | p
        · exact ⟨_, rfl⟩
        · dsimp only
          split
          · exact ⟨_, rfl⟩
          · exact ⟨_, rfl⟩
    · exact ⟨_, rfl⟩

/-- A first-call success makes the retry wrapper return after one call. -/
theorem retry_go_first_ok {E α : Type} (b : ℚ) (j : Nat → ℚ) (f : Nat → Except E α)
    (n x : Nat) (a : α) (h : f x = .ok a) :
    retry_go b j f n x = (f x, 1, []) := by
  cases n <;> simp [retry_go, h]

/-- C10: `fetch_single_price` is total at its boundary — whatever the
    historical lookup and the fast-info fallback do (return data, return
    nothing, or raise), it returns a `(success, price, error)` triple and
    never raises; consequently its `retry_with_backoff` wrapper never
    retries or sleeps: the body runs exactly once per call. -/
theorem C10_fetch_single_price_total (retries : Nat) (base : ℚ) (jitter : Nat → ℚ)
    (historyRes : Nat → Except String (List ℚ)) (fastRes : Nat → Except String (Option ℚ)) :
    (∀ x, ∃ v, fetch_single_price (historyRes x) (fastRes x) = .ok v) ∧
    retry_with_backoff retries base jitter
        (fun x => fetch_single_price (historyRes x) (fastRes x)) =
      (fetch_single_price (historyRes 0) (fastRes 0), 1, []) := by
  refine ⟨fun x => fetch_single_price_ok (historyRes x) (fastRes x), ?_⟩
  obtain ⟨v, hv⟩ := fetch_single_price_ok (historyRes 0) (fastRes 0)
  exact retry_go_first_ok base jitter _ retries 0 v hv

/-- Every row of the valuation table is `market_row` of some holding and
    some fetch outcome. -/
theorem exists_market_row_of_mem (td : Nat) (tc : String) (rate now : ℚ)
    (fetch : Nat → Option (List ℚ)) :
    ∀ (i : Nat) (pf : List Holding) (r : MarketRow),
      r ∈ get_market_data_go td tc rate now fetch i pf →
      ∃ fo item, r = market_row td tc rate now fo item := by
  intro i pf
  induction pf generalizing i with
  | nil => intro r hr; simp [get_market_data_go] at hr
  | cons item rest ih =>
    intro r hr
    rw [get_market_data_go] at hr
    rcases List.mem_cons.mp hr with h | h
    · exact ⟨fetch i, item, h⟩
    · exact ih (i + 1) r h

/-- C1: in every row of the valuation table, a liability row
    (`category == "liability"` or legacy type `負債`) has
    `net_value = -market_value` and `unrealized_pl = total_cost -
    market_value`, and every other row has `net_value = market_value` and
    `unrealized_pl = market_value - total_cost`. -/
theorem C1_liability_sign (td : Nat) (tc : String) (rate now : ℚ)
    (fetch : Nat → Option (List ℚ)) (pf : List Holding) (r : MarketRow)
    (hr : r ∈ get_market_data td tc rate now fetch pf) :
    ((r.Category = "liability" ∨ r.Type' = some "負債") →
      r.Net_Value = -r.Market_Value ∧
      r.Unrealized_PL = r.Total_Cost - r.Market_Value) ∧
    (¬(r.Category = "liability" ∨ r.Type' = some "負債") →
      r.Net_Value = r.Market_Value ∧
      r.Unrealized_PL = r.Market_Value - r.Total_Cost) := by
  obtain ⟨fo, item, rfl⟩ := exists_market_row_of_mem td tc rate now fetch 0 pf r hr
  constructor
  · intro hcase
    have hcase' : item_category item = "liability" ∨ item_asset_type item = some "負債" := by
      simpa [market_row] using hcase
    have hL : item_is_liability item = true := by
      unfold item_is_liability
      exact decide_eq_true hcase'
    simp [market_row, hL]
  · intro hcase
    have hcase' : ¬(item_category item = "liability" ∨ item_asset_type item = some "負債") := by
      intro hc
      exact hcase (by simpa [market_row] using hc)
    have hL : item_is_liability item = false := by
      unfold item_is_liability
      exact decide_eq_false hcase'
    simp [market_row, hL]

/-- C1 witness: a concrete liability holding in a one-element portfolio. -/
theorem C1_liability_sign_witness :
    ((market_row 1 "TWD" 32 0 none
        { category := some "liability", quantity := some 2, avg_cost := some 10,
          manual_price := some 7 : Holding }).Category = "liability" ∨
      (market_row 1 "TWD" 32 0 none
        { category := some "liability", quantity := some 2, avg_cost := some 10,
          manual_price := some 7 : Holding }).Type' = some "負債") ∧
    (market_row 1 "TWD" 32 0 none
        { category := some "liability", quantity := some 2, avg_cost := some 10,
          manual_price := some 7 : Holding }).Net_Value =
      -(market_row 1 "TWD" 32 0 none
        { category := some "liability", quantity := some 2, avg_cost := some 10,
          manual_price := some 7 : Holding }).Market_Value ∧
    (market_row 1 "TWD" 32 0 none
        { category := some "liability", quantity := some 2, avg_cost := some 10,
          manual_price := some 7 : Holding }).Unrealized_PL =
      (market_row 1 "TWD" 32 0 none
        { category := some "liability", quantity := some 2, avg_cost := some 10,
          manual_price := some 7 : Holding }).Total_Cost -
      (market_row 1 "TWD" 32 0 none
        { category := some "liability", quantity := some 2, avg_cost := some 10,
          manual_price := some 7 : Holding }).Market_Value := by
  have h := C1_liability_sign 1 "TWD" 32 0 (fun _ => none)
    [{ category := some "liability", quantity := some 2, avg_cost := some 10,
       manual_price := some 7 : Holding }]
    (market_row 1 "TWD" 32 0 none
      { category := some "liability", quantity := some 2, avg_cost := some 10,
        manual_price := some 7 : Holding })
    (by simp [get_market_data, get_market_data_go])
  have hcase : (market_row 1 "TWD" 32 0 none
      { category := some "liability", quantity := some 2, avg_cost := some 10,
        manual_price := some 7 : Holding }).Category = "liability" ∨
      (market_row 1 "TWD" 32 0 none
        { category := some "liability", quantity := some 2, avg_cost := some 10,
          manual_price := some 7 : Holding }).Type' = some "負債" :=
    Or.inl rfl
  exact ⟨hcase, (h.1 hcase).1, (h.1 hcase).2⟩

/-- C6: in every row, `market_value` is the resolved price converted to the
    base currency times the quantity and `total_cost` is the converted
    average cost times the quantity, with `base_price = price *
    rate_multiplier` and `base_avg_cost = avg_cost * rate_multiplier` —
    exactly, in rational arithmetic. -/
theorem C6_base_metrics (td : Nat) (tc : String) (rate now : ℚ)
    (fetch : Nat → Option (List ℚ)) (pf : List Holding) (r : MarketRow)
    (hr : r ∈ get_market_data td tc rate now fetch pf) :
    r.Market_Value = r.Current_Price * r.Quantity ∧
    r.Total_Cost = r.Avg_Cost * r.Quantity ∧
    (∀ (fo : Option (List ℚ)) (item : Holding),
      (market_row td tc rate now fo item).Current_Price =
        (resolve_price td now fo (item_is_financial item) (item_manual_price item)
            (item_avg_cost item) (item_last_update item)).current_price *
          rate_multiplier (if tc = "Auto" then "TWD" else tc) (item_asset_currency item) rate ∧
      (market_row td tc rate now fo item).Avg_Cost =
        item_avg_cost item *
          rate_multiplier (if tc = "Auto" then "TWD" else tc) (item_asset_currency item) rate ∧
      (market_row td tc rate now fo item).Quantity = item_qty item) := by
  obtain ⟨fo, item, rfl⟩ := exists_market_row_of_mem td tc rate now fetch 0 pf r hr
  refine ⟨by simp [market_row], by simp [market_row], fun fo' item' => ?_⟩
  exact ⟨by simp [market_row], by simp [market_row], by simp [market_row]⟩

/-- C6 witness: a concrete one-element portfolio. -/
theorem C6_base_metrics_witness :
    (market_row 1 "TWD" 32 0 none
        { Ticker := some "VT", quantity := some 3, avg_cost := some 5 : Holding }).Market_Value =
      (market_row 1 "TWD" 32 0 none
        { Ticker := some "VT", quantity := some 3, avg_cost := some 5 : Holding }).Current_Price *
      (market_row 1 "TWD" 32 0 none
        { Ticker := some "VT", quantity := some 3, avg_cost := some 5 : Holding }).Quantity :=
  (C6_base_metrics 1 "TWD" 32 0 (fun _ => none)
    [{ Ticker := some "VT", quantity := some 3, avg_cost := some 5 : Holding }]
    (market_row 1 "TWD" 32 0 none
      { Ticker := some "VT", quantity := some 3, avg_cost := some 5 : Holding })
    (by simp [get_market_data, get_market_data_go])).1

/-- C8: in every row, `roi_pct = unrealized_pl / total_cost * 100` when
    `total_cost > 0` and `roi_pct = 0` whenever `total_cost ≤ 0`; the
    division is guarded by the positivity test. -/
theorem C8_roi_guard (td : Nat) (tc : String) (rate now : ℚ)
    (fetch : Nat → Option (List ℚ)) (pf : List Holding) (r : MarketRow)
    (hr : r ∈ get_market_data td tc rate now fetch pf) :
    (0 < r.Total_Cost → r.ROI = r.Unrealized_PL / r.Total_Cost * 100) ∧
    (r.Total_Cost ≤ 0 → r.ROI = 0) := by
  obtain ⟨fo, item, rfl⟩ := exists_market_row_of_mem td tc rate now fetch 0 pf r hr
  constructor
  · intro h
    simp only [market_row] at h ⊢
    rw [if_pos h]
  · intro h
    simp only [market_row] at h ⊢
    rw [if_neg (not_lt.mpr h)]

/-- C8 witness: a holding with `quantity = 0` has `total_cost = 0 ≤ 0` and
    `roi_pct = 0`. -/
theorem C8_roi_guard_witness :
    (market_row 1 "TWD" 32 0 none
        { Ticker := some "Q0", quantity := some 0, avg_cost := some 5 : Holding }).Total_Cost ≤ 0 ∧
    (market_row 1 "TWD" 32 0 none
        { Ticker := some "Q0", quantity := some 0, avg_cost := some 5 : Holding }).ROI = 0 := by
  have hle : (market_row 1 "TWD" 32 0 none
      { Ticker := some "Q0", quantity := some 0, avg_cost := some 5 : Holding }).Total_Cost ≤ 0 := by
    simp [market_row, item_avg_cost, item_qty]
  exact ⟨hle, (C8_roi_guard 1 "TWD" 32 0 (fun _ => none)
    [{ Ticker := some "Q0", quantity := some 0, avg_cost := some 5 : Holding }]
    (market_row 1 "TWD" 32 0 none
      { Ticker := some "Q0", quantity := some 0, avg_cost := some 5 : Holding })
    (by simp [get_market_data, get_market_data_go])).2 hle⟩

/-- C9 (implicit): for a holding whose (base currency, asset currency) pair
    is neither (TWD, USD) nor (USD, TWD) — e.g. any JPY asset — the
    multiplier is silently 1, so the base-currency metrics equal the
    native-currency metrics, with no conversion and no error. -/
theorem C9_unknown_currency_identity (td : Nat) (tc : String) (rate now : ℚ)
    (fo : Option (List ℚ)) (item : Holding)
    (h1 : ¬((if tc = "Auto" then "TWD" else tc) = "TWD" ∧ item_asset_currency item = "USD"))
    (h2 : ¬((if tc = "Auto" then "TWD" else tc) = "USD" ∧ item_asset_currency item = "TWD")) :
    rate_multiplier (if tc = "Auto" then "TWD" else tc) (item_asset_currency item) rate = 1 ∧
    (market_row td tc rate now fo item).Current_Price =
      (resolve_price td now fo (item_is_financial item) (item_manual_price item)
        (item_avg_cost item) (item_last_update item)).current_price ∧
    (market_row td tc rate now fo item).Avg_Cost = item_avg_cost item ∧
    (market_row td tc rate now fo item).Market_Value =
      (resolve_price td now fo (item_is_financial item) (item_manual_price item)
        (item_avg_cost item) (item_last_update item)).current_price * item_qty item ∧
    (market_row td tc rate now fo item).Total_Cost = item_avg_cost item * item_qty item := by
  have hm : rate_multiplier (if tc = "Auto" then "TWD" else tc)
      (item_asset_currency item) rate = 1 := by
    unfold rate_multiplier
    rw [if_neg h1, if_neg h2]
  refine ⟨hm, ?_, ?_, ?_, ?_⟩ <;> simp [market_row, hm]

/-- C9 witness: a JPY-denominated holding under base currency TWD. -/
theorem C9_unknown_currency_identity_witness :
    (market_row 1 "TWD" 32 0 none
        { Ticker := some "JP1", currency := some "JPY", quantity := some 4,
          avg_cost := some 2, manual_price := some 3 : Holding }).Avg_Cost =
      item_avg_cost
        { Ticker := some "JP1", currency := some "JPY", quantity := some 4,
          avg_cost := some 2, manual_price := some 3 : Holding } :=
  (C9_unknown_currency_identity 1 "TWD" 32 0 none
    { Ticker := some "JP1", currency := some "JPY", quantity := some 4,
      avg_cost := some 2, manual_price := some 3 : Holding }
    (by simp [item_asset_currency, pyOrStrD])
    (by simp [item_asset_currency, pyOrStrD])).2.2.1

/-- The last element of `pre ++ [p, l]` is `l`, whatever the fallback. -/
theorem getLastD_append_pair (pre : List ℚ) (p l : ℚ) :
    ∀ d, (pre ++ [p, l]).getLastD d = l := by
  intro d
  rw [show pre ++ [p, l] = (pre ++ [p]) ++ [l] by simp, List.getLastD_concat]

/-- The element at position `pre.length` of `pre ++ [p, l]` is `p`. -/
theorem getD_append_len (pre : List ℚ) (p l : ℚ) :
    (pre ++ [p, l]).getD pre.length 0 = p := by
  induction pre with
  | nil => rfl
  | cons a t ih => exact ih

/-- Reduction of `resolve_price` on the live tier: investment holding, cache
    not usable, non-empty history. -/
theorem resolve_price_some_cons (td : Nat) (now : ℚ) (mp ac : ℚ) (lu : String)
    (c : ℚ) (cs : List ℚ)
    (hneg : ¬(check_is_outdated td now lu = false ∧ 0 < mp)) :
    resolve_price td now (some (c :: cs)) false mp ac lu =
      { current_price := (c :: cs).getLastD 0
        daily_change_pct :=
          if 0 < (if 1 < (c :: cs).length then (c :: cs).getD ((c :: cs).length - 2) 0
                  else (c :: cs).getLastD 0)
          then ((c :: cs).getLastD 0 -
                (if 1 < (c :: cs).length then (c :: cs).getD ((c :: cs).length - 2) 0
                 else (c :: cs).getLastD 0)) /
               (if 1 < (c :: cs).length then (c :: cs).getD ((c :: cs).length - 2) 0
                else (c :: cs).getLastD 0)
          else 0
        status := "✅ 即時"
        history := c :: cs } := by
  unfold resolve_price
  rw [if_neg (by decide), if_neg hneg]

/-- Reduction of `resolve_price` on the failed-fetch tier: the history call
    raised or returned an empty frame. -/
theorem resolve_price_fallback (td : Nat) (now : ℚ) (mp ac : ℚ) (lu : String)
    (fo : Option (List ℚ)) (hfo : fo = none ∨ fo = some [])
    (hneg : ¬(check_is_outdated td now lu = false ∧ 0 < mp)) :
    resolve_price td now fo false mp ac lu =
      if 0 < mp then ⟨mp, 0, "⚠️ 手動/舊資料", List.replicate 30 mp⟩
      else ⟨ac, 0, "⚠️ 僅顯示成本", List.replicate 30 ac⟩ := by
  rcases hfo with rfl | rfl <;>
    · unfold resolve_price
      rw [if_neg (by decide), if_neg hneg]

/-- C4: the fallback tiers of price resolution in the valuation aggregator.
    Cash/liability: `manual_price` when positive else 1, status "manual"
    (`✅ 手動`).  Investment: fresh cache with positive `manual_price` ⇒
    cached price (`💾 快取 (24h內)`); otherwise a live fetch — on success the
    latest close, status `✅ 即時`, daily change from the last two closes;
    on failure `manual_price` when positive (`⚠️ 手動/舊資料`) else
    `avg_cost` (`⚠️ 僅顯示成本`).  The first conjunct ties the row built by
    `get_market_data` to this resolution. -/
theorem C4_price_resolution (td : Nat) (tc : String) (rate now : ℚ)
    (fo : Option (List ℚ)) (item : Holding) (fin : Bool) (mp ac : ℚ) (lu : String) :
    ((market_row td tc rate now fo item).Status =
        (resolve_price td now fo (item_is_financial item) (item_manual_price item)
          (item_avg_cost item) (item_last_update item)).status ∧
      (market_row td tc rate now fo item).Daily_Change =
        (resolve_price td now fo (item_is_financial item) (item_manual_price item)
          (item_avg_cost item) (item_last_update item)).daily_change_pct * 100) ∧
    (fin = true → 0 < mp →
      (resolve_price td now fo fin mp ac lu).current_price = mp ∧
      (resolve_price td now fo fin mp ac lu).status = "✅ 手動") ∧
    (fin = true → mp ≤ 0 →
      (resolve_price td now fo fin mp ac lu).current_price = 1 ∧
      (resolve_price td now fo fin mp ac lu).status = "✅ 手動") ∧
    (fin = false → check_is_outdated td now lu = false → 0 < mp →
      (resolve_price td now fo fin mp ac lu).current_price = mp ∧
      (resolve_price td now fo fin mp ac lu).status = "💾 快取 (24h內)") ∧
    (fin = false → (check_is_outdated td now lu = true ∨ mp ≤ 0) →
      (∀ (pre : List ℚ) (prev last : ℚ), fo = some (pre ++ [prev, last]) →
        (resolve_price td now fo fin mp ac lu).current_price = last ∧
        (resolve_price td now fo fin mp ac lu).status = "✅ 即時" ∧
        (resolve_price td now fo fin mp ac lu).daily_change_pct =
          (if 0 < prev then (last - prev) / prev else 0)) ∧
      (∀ c : ℚ, fo = some [c] →
        (resolve_price td now fo fin mp ac lu).current_price = c ∧
        (resolve_price td now fo fin mp ac lu).status = "✅ 即時" ∧
        (resolve_price td now fo fin mp ac lu).daily_change_pct = 0) ∧
      ((fo = none ∨ fo = some []) →
        (0 < mp →
          (resolve_price td now fo fin mp ac lu).current_price = mp ∧
          (resolve_price td now fo fin mp ac lu).status = "⚠️ 手動/舊資料") ∧
        (mp ≤ 0 →
          (resolve_price td now fo fin mp ac lu).current_price = ac ∧
          (resolve_price td now fo fin mp ac lu).status = "⚠️ 僅顯示成本"))) := by
  refine ⟨⟨by simp [market_row], by simp [market_row]⟩, ?_, ?_, ?_, ?_⟩
  · rintro rfl hmp
    constructor <;> simp [resolve_price, hmp]
  · rintro rfl hmp
    have h' : ¬(0 : ℚ) < mp := not_lt.mpr hmp
    constructor <;> simp [resolve_price, h']
  · rintro rfl hco hmp
    constructor <;> simp [resolve_price, hco, hmp]
  · rintro rfl hcond
    have hneg : ¬(check_is_outdated td now lu = false ∧ 0 < mp) := by
      rcases hcond with h | h
      · simp [h]
      · exact fun hc => absurd hc.2 (not_lt.mpr h)
    refine ⟨?_, ?_, ?_⟩
    · intro pre prev last hfo
      subst hfo
      obtain ⟨c, cs, hc⟩ : ∃ c cs, pre ++ [prev, last] = c :: cs := by
        cases pre with
        | nil => exact ⟨prev, [last], rfl⟩
        | cons a t => exact ⟨a, t ++ [prev, last], rfl⟩
      rw [hc, resolve_price_some_cons td now mp ac lu c cs hneg]
      have hlast : (c :: cs).getLastD 0 = last := by
        rw [← hc]; exact getLastD_append_pair pre prev last 0
      have h1lt : 1 < (c :: cs).length := by rw [← hc]; simp
      have hprev : (if 1 < (c :: cs).length then (c :: cs).getD ((c :: cs).length - 2) 0
          else (c :: cs).getLastD 0) = prev := by
        rw [if_pos h1lt, ← hc, show (pre ++ [prev, last]).length - 2 = pre.length by simp]
        exact getD_append_len pre prev last
      refine ⟨hlast, rfl, ?_⟩
      dsimp only
      rw [hprev, hlast]
    · intro c hfo
      subst hfo
      rw [resolve_price_some_cons td now mp ac lu c [] hneg]
      refine ⟨rfl, rfl, ?_⟩
      dsimp only
      norm_num
    · intro hfo
      rw [resolve_price_fallback td now mp ac lu fo hfo hneg]
      constructor
      · intro hmp
        rw [if_pos hmp]
        exact ⟨rfl, rfl⟩
      · intro hmp
        rw [if_neg (not_lt.mpr hmp)]
        exact ⟨rfl, rfl⟩

/-- C4 witness: an investment holding with a stale timestamp and a two-point
    history `[10, 12]` resolves to the live tier with price 12 and daily
    change `(12 - 10) / 10 = 1/5`. -/
theorem C4_price_resolution_witness :
    (resolve_price 1 example_now (some [10, 12]) false 0 5 "N/A").current_price = 12 ∧
    (resolve_price 1 example_now (some [10, 12]) false 0 5 "N/A").status = "✅ 即時" ∧
    (resolve_price 1 example_now (some [10, 12]) false 0 5 "N/A").daily_change_pct =
      (if 0 < (10 : ℚ) then ((12 : ℚ) - 10) / 10 else 0) :=
  ((C4_price_resolution 1 "TWD" 32 example_now (some [10, 12])
      { : Holding } false 0 5 "N/A").2.2.2.2 rfl
    (Or.inl (by simp [check_is_outdated]))).1 [] 10 12 rfl

/-- Every candidate of the scan carries its own portfolio index. -/
theorem outdated_items_mem (td : Nat) (now : ℚ) :
    ∀ (s : Nat) (pf : List Holding) (p : Nat × Holding),
      p ∈ outdated_items td now s pf → s ≤ p.1 ∧ pf[p.1 - s]? = some p.2 := by
  intro s pf
  induction pf generalizing s with
  | nil => intro p hp; simp [outdated_items] at hp
  | cons item rest ih =>
    intro p hp
    simp only [outdated_items] at hp
    split at hp
    · have h := ih (s + 1) p hp
      refine ⟨by omega, ?_⟩
      rw [show p.1 - s = (p.1 - (s + 1)) + 1 by omega]
      simpa using h.2
    · split at hp
      · rcases List.mem_cons.mp hp with rfl | h
        · exact ⟨le_refl s, by simp⟩
        · have h' := ih (s + 1) p h
          refine ⟨by omega, ?_⟩
          rw [show p.1 - s = (p.1 - (s + 1)) + 1 by omega]
          simpa using h'.2
      · have h := ih (s + 1) p hp
        refine ⟨by omega, ?_⟩
        rw [show p.1 - s = (p.1 - (s + 1)) + 1 by omega]
        simpa using h.2

/-- The candidate indices are strictly increasing (`enumerate` order). -/
theorem outdated_items_pairwise (td : Nat) (now : ℚ) :
    ∀ (s : Nat) (pf : List Holding),
      (outdated_items td now s pf).Pairwise (fun p q => p.1 < q.1) := by
  intro s pf
  induction pf generalizing s with
  | nil => simp [outdated_items]
  | cons item rest ih =>
    simp only [outdated_items]
    split
    · exact ih (s + 1)
    · split
      · refine List.Pairwise.cons ?_ (ih (s + 1))
        intro q hq
        have h := outdated_items_mem td now (s + 1) rest q hq
        simp only
        omega
      · exact ih (s + 1)

/-- Invariant of the result-merging loop: the counters accumulate the
    success/failure split of the remaining candidates, and the portfolio is
    updated exactly at the successfully fetched candidate indices. -/
theorem auto_update_go_spec (fetch : Nat → Bool × ℚ) (now_str : String) :
    ∀ (l : List (Nat × Holding)) (s f : Nat) (pf : List Holding),
      (∀ p ∈ l, ∃ hh, pf[p.1]? = some hh) →
      l.Pairwise (fun p q => p.1 < q.1) →
      (auto_update_go fetch now_str l s f pf).1 =
        s + (l.filter fun p => (fetch p.1).1).length ∧
      (auto_update_go fetch now_str l s f pf).2.1 =
        f + (l.filter fun p => !(fetch p.1).1).length ∧
      (auto_update_go fetch now_str l s f pf).2.2.length = pf.length ∧
      (∀ i : Nat, (auto_update_go fetch now_str l s f pf).2.2[i]? =
        if i ∈ l.map Prod.fst ∧ (fetch i).1 = true
        then pf[i]?.map fun h => updateHolding h (fetch i).2 now_str
        else pf[i]?) := by
  intro l
  induction l with
  | nil =>
    intro s f pf _ _
    refine ⟨by simp [auto_update_go], by simp [auto_update_go], rfl, ?_⟩
    intro i
    simp [auto_update_go]
  | cons p rest ih =>
    obtain ⟨i0, h0⟩ := p
    intro s f pf hin hpw
    obtain ⟨hh0, hpf0⟩ := hin (i0, h0) (List.mem_cons_self _ _)
    have hlt0 : i0 < pf.length := (List.getElem?_eq_some_iff.mp hpf0).1
    have hrestpw : rest.Pairwise (fun p q => p.1 < q.1) := (List.pairwise_cons.mp hpw).2
    have hgt : ∀ q ∈ rest, i0 < q.1 := (List.pairwise_cons.mp hpw).1
    rcases hf : fetch i0 with ⟨ok, price⟩
    cases ok with
    | true =>
      have hgo : auto_update_go fetch now_str ((i0, h0) :: rest) s f pf =
          auto_update_go fetch now_str rest (s + 1) f
            (pf.set i0 (updateHolding hh0 price now_str)) := by
        simp only [auto_update_go, hf, hpf0]
      have hin' : ∀ p ∈ rest, ∃ hh,
          (pf.set i0 (updateHolding hh0 price now_str))[p.1]? = some hh := by
        intro p hp
        obtain ⟨hh, hph⟩ := hin p (List.mem_cons_of_mem _ hp)
        by_cases hpi : i0 = p.1
        · subst hpi
          exact ⟨_, List.getElem?_set_self hlt0⟩
        · exact ⟨hh, by rw [List.getElem?_set_ne hpi]; exact hph⟩
      have H := ih (s + 1) f (pf.set i0 (updateHolding hh0 price now_str)) hin' hrestpw
      have hfilc : ((i0, h0) :: rest).filter (fun p => (fetch p.1).1) =
          (i0, h0) :: rest.filter (fun p => (fetch p.1).1) := by
        rw [List.filter_cons_of_pos]
        simp [hf]
      have hfilf : ((i0, h0) :: rest).filter (fun p => !(fetch p.1).1) =
          rest.filter (fun p => !(fetch p.1).1) := by
        rw [List.filter_cons_of_neg]
        simp [hf]
      refine ⟨?_, ?_, ?_, ?_⟩
      · rw [hgo, H.1, hfilc]
        simp only [List.length_cons]
        omega
      · rw [hgo, H.2.1, hfilf]
      · rw [hgo, H.2.2.1, List.length_set]
      · intro i
        rw [hgo, H.2.2.2 i]
        by_cases hi : i = i0
        · subst hi
          have hnotin : i ∉ rest.map Prod.fst := by
            intro hmem
            obtain ⟨q, hq, hq1⟩ := List.mem_map.mp hmem
            have := hgt q hq
            omega
          rw [if_neg (by rintro ⟨hmem, -⟩; exact hnotin hmem)]
          rw [if_pos ⟨List.mem_map.mpr ⟨(i, h0), List.mem_cons_self _ _, rfl⟩, by rw [hf]⟩]
          rw [hpf0, List.getElem?_set_self hlt0, hf]
          rfl
        · have hset : ∀ (a : Holding), (pf.set i0 a)[i]? = pf[i]? := fun a =>
            List.getElem?_set_ne (fun h => hi (h.symm))
          rw [hset]
          refine if_congr ?_ rfl rfl
          constructor
          · rintro ⟨hmem, hft⟩
            exact ⟨by simpa using Or.inr (by simpa using hmem), hft⟩
          · rintro ⟨hmem, hft⟩
            rcases (by simpa using hmem : i = i0 ∨ i ∈ rest.map Prod.fst) with h | h
            · exact absurd h hi
            · exact ⟨h, hft⟩
    | false =>
      have hgo : auto_update_go fetch now_str ((i0, h0) :: rest) s f pf =
          auto_update_go fetch now_str rest s (f + 1) pf := by
        simp only [auto_update_go, hf]
      have hin' : ∀ p ∈ rest, ∃ hh, pf[p.1]? = some hh :=
        fun p hp => hin p (List.mem_cons_of_mem _ hp)
      have H := ih s (f + 1) pf hin' hrestpw
      have hfilc : ((i0, h0) :: rest).filter (fun p => (fetch p.1).1) =
          rest.filter (fun p => (fetch p.1).1) := by
        rw [List.filter_cons_of_neg]
        simp [hf]
      have hfilf : ((i0, h0) :: rest).filter (fun p => !(fetch p.1).1) =
          (i0, h0) :: rest.filter (fun p => !(fetch p.1).1) := by
        rw [List.filter_cons_of_pos]
        simp [hf]
      refine ⟨?_, ?_, ?_, ?_⟩
      · rw [hgo, H.1, hfilc]
      · rw [hgo, H.2.1, hfilf]
        simp only [List.length_cons]
        omega
      · rw [hgo, H.2.2.1]
      · intro i
        rw [hgo, H.2.2.2 i]
        by_cases hi : i = i0
        · subst hi
          rw [if_neg (by rintro ⟨-, hft⟩; rw [hf] at hft; exact Bool.noConfusion hft),
            if_neg (by rintro ⟨-, hft⟩; rw [hf] at hft; exact Bool.noConfusion hft)]
        · refine if_congr ?_ rfl rfl
          constructor
          · rintro ⟨hmem, hft⟩
            exact ⟨by simpa using Or.inr (by simpa using hmem), hft⟩
          · rintro ⟨hmem, hft⟩
            rcases (by simpa using hmem : i = i0 ∨ i ∈ rest.map Prod.fst) with h | h
            · exact absurd h hi
            · exact ⟨h, hft⟩

/-- C5: `auto_update_portfolio` returns success/failure counts equal to the
    success/failure split of the candidate fetches ((0,0) with no fetches
    when there are no candidates), returns the input list mutated in place —
    exactly the successfully fetched candidates are replaced by
    `updateHolding` (new `manual_price` and `last_update`), every failed
    candidate and every non-candidate entry is unchanged — and the length is
    preserved. -/
theorem C5_auto_update_portfolio (td : Nat) (now : ℚ) (now_str : String)
    (fetch : Nat → Bool × ℚ) (pf : List Holding) :
    (auto_update_portfolio td now now_str fetch pf).1 =
      ((outdated_items td now 0 pf).filter fun p => (fetch p.1).1).length ∧
    (auto_update_portfolio td now now_str fetch pf).2.1 =
      ((outdated_items td now 0 pf).filter fun p => !(fetch p.1).1).length ∧
    (auto_update_portfolio td now now_str fetch pf).2.2.length = pf.length ∧
    (∀ i : Nat, (auto_update_portfolio td now now_str fetch pf).2.2[i]? =
      if i ∈ (outdated_items td now 0 pf).map Prod.fst ∧ (fetch i).1 = true
      then pf[i]?.map fun h => updateHolding h (fetch i).2 now_str
      else pf[i]?) := by
  simp only [auto_update_portfolio]
  split
  · rename_i hempty
    rw [hempty]
    refine ⟨rfl, rfl, rfl, ?_⟩
    intro i
    simp
  · rename_i hne
    have hin : ∀ p ∈ outdated_items td now 0 pf, ∃ hh, pf[p.1]? = some hh := by
      intro p hp
      have h := outdated_items_mem td now 0 pf p hp
      exact ⟨p.2, by simpa using h.2⟩
    have H := auto_update_go_spec fetch now_str (outdated_items td now 0 pf) 0 0 pf hin
      (outdated_items_pairwise td now 0 pf)
    exact ⟨by rw [H.1]; omega, by rw [H.2.1]; omega, H.2.2.1, H.2.2.2⟩

end AInvestool
